import Mathlib

/-!
Verification of the URL-shortener core (Go backend) against its design
specification.  The Go sources are shallowly embedded: pure helpers become
Lean functions on `List Char` / `String`, the randomness of the code
generator becomes an explicit integer argument (with the contract of
crypto/rand.Int as a hypothesis), and the database repository becomes an
oracle record of functions, matching the `URLRepository` interface.
Machine integers (int, int64) are modelled as `Nat`/`Int`; none of the
embedded code paths can overflow them on the inputs considered.
-/

deriving instance DecidableEq for Except

namespace UrlShortener

/-! ### Small string utilities shared by the embeddings

Go's `strings` / byte-level operations, re-stated on `List Char`.
`byteLen` is Go's `len` on a string (UTF-8 byte count). -/

/-- UTF-8 byte width of one character (Go strings are byte slices). -/
def utf8Len (c : Char) : Nat :=
  if c.toNat < 0x80 then 1
  else if c.toNat < 0x800 then 2
  else if c.toNat < 0x10000 then 3
  else 4

/-- Go `len(s)` for a string: total UTF-8 byte count. -/
def byteLen (l : List Char) : Nat := (l.map utf8Len).sum

/-- ASCII lower-casing of one character, the fragment of Go
`strings.ToLower` exercised here (all inputs in the claims are ASCII). -/
def lowerChar (c : Char) : Char :=
  if 'A' ≤ c ∧ c ≤ 'Z' then Char.ofNat (c.toNat + 32) else c

/-- ASCII `strings.ToLower` on a string. -/
def lowerStr (s : String) : String := String.mk (s.data.map lowerChar)

/-- Does `l` start with `p`?  Go `strings.HasPrefix` on rune lists. -/
def startsWithL : List Char → List Char → Bool
  | _, [] => true
  | [], _ :: _ => false
  | c :: cs, p :: ps => c = p && startsWithL cs ps

/-- Go `strings.HasPrefix s p`. -/
def hasPre (s p : String) : Bool := startsWithL s.data p.data

/-- Go `strings.HasSuffix s p`. -/
def hasSuf (s p : String) : Bool := startsWithL s.data.reverse p.data.reverse

/-- Does the pattern `p` occur as a contiguous substring of `l`?
Go `strings.Contains`. -/
def containsSub : List Char → List Char → Bool
  | [], p => p.isEmpty
  | l@(_ :: cs), p => startsWithL l p || containsSub cs p

/-- Split at the first occurrence of `sep`, dropping the separator
(Go net/url's internal split with cutc = true); `none` when absent. -/
def splitFirst (sep : Char) : List Char → Option (List Char × List Char)
  | [] => none
  | c :: cs =>
    if c = sep then some ([], cs)
    else (splitFirst sep cs).map (fun p => (c :: p.1, p.2))

/-- Index of the last occurrence of `c` (Go `strings.LastIndex`). -/
def lastIndexOf (c : Char) : List Char → Option Nat
  | [] => none
  | x :: xs =>
    match lastIndexOf c xs with
    | some i => some (i + 1)
    | none => if x = c then some 0 else none

/-- Everything before the first ':' — Go `strings.Split(h, ":")[0]`. -/
def takeUntilColon : List Char → List Char
  | [] => []
  | c :: cs => if c = ':' then [] else c :: takeUntilColon cs

/-! ### Code generator (backend/internal/shortener/generator.go) -/

/-- The Base62 character set of the source, order a..z A..Z 0..9. -/
def base62Chars : String :=
  "abcdefghijklmnopqrstuvwxyzABCDEFGHIJKLMNOPQRSTUVWXYZ0123456789"

/-- Source constant `base62Base = int64(len(base62Chars))`. -/
def base62Base : Nat := base62Chars.data.length

/-- Source constants bounding code lengths. -/
def minCodeLength : Nat := 4

def maxCodeLength : Nat := 12

def defaultCodeLength : Nat := 7

/-- `base62Chars[i]` of the source (indices produced are always < 62). -/
def base62Char (i : Nat) : Char := base62Chars.data.getD i 'a'

/-- The remainder chain of `Generator.toBase62`: repeated `DivMod` by 62,
prepending `base62Chars[remainder]`.  Fuel-indexed so it reduces by `rfl`;
`fuel ≥ value` always suffices since the value strictly shrinks. -/
def base62DigitsAux : Nat → Nat → List Char
  | 0, _ => []
  | fuel + 1, v =>
    if v = 0 then [] else base62DigitsAux fuel (v / 62) ++ [base62Char (v % 62)]

/-- Base-62 digit string of a positive value, most significant first. -/
def base62Digits (v : Nat) : List Char := base62DigitsAux v v

/-- Left-pad with `c` to length `n` — the source's
`for len(result) < g.codeLength` prepend loop. -/
def leftPad (c : Char) (n : Nat) (l : List Char) : List Char :=
  List.replicate (n - l.length) c ++ l

/-- `Generator.toBase62`: zero maps to "a" padded to the code length;
otherwise the div/mod chain, padded with the zero symbol 'a'. -/
def toBase62 (codeLength : Nat) (value : Nat) : String :=
  if value = 0 then String.mk (leftPad 'a' codeLength ['a'])
  else String.mk (leftPad 'a' codeLength (base62Digits value))

/-- `Generator.Generate`, with the crypto/rand draw made explicit:
`randomValue` stands for `rand.Int(rand.Reader, 62^codeLength)`, whose
contract `randomValue < 62^codeLength` appears as a hypothesis in the
theorems.  The random-source failure path is not modelled (it aborts the
request and no claim concerns it). -/
def Generate (codeLength : Nat) (randomValue : Nat) : String :=
  toBase62 codeLength randomValue

/-- `IsValidCode`: byte length in [4,12] and every rune in `base62Chars`. -/
def IsValidCode (code : String) : Bool :=
  minCodeLength ≤ byteLen code.data && byteLen code.data ≤ maxCodeLength &&
    code.data.all (fun c => base62Chars.data.contains c)

/-! ### Data model (backend/internal/models/url.go)

Times (time.Time) are modelled as `Int` instants; `time.Now()` becomes an
explicit `now` argument threaded to the functions that consult the clock. -/

/-- `models.URL`.  `id` and `createdAt` are store-assigned. -/
structure URL where
  id : Int
  shortCode : String
  targetURL : String
  isActive : Bool
  createdAt : Int
  expiresAt : Option Int
deriving DecidableEq

/-- `URL.IsExpired`: an expiry is set and `time.Now().After(expiresAt)`,
i.e. the current instant is strictly later. -/
def URL.IsExpired (now : Int) (u : URL) : Bool :=
  match u.expiresAt with
  | none => false
  | some t => t < now

/-- `URL.IsAccessible`: active and not expired. -/
def URL.IsAccessible (now : Int) (u : URL) : Bool :=
  u.isActive && !(u.IsExpired now)

/-! ### Custom code validation (models.ValidateCustomCode) -/

/-- Source constants `MinCustomCodeLength` / `MaxCustomCodeLength`. -/
def MinCustomCodeLength : Nat := 2

def MaxCustomCodeLength : Nat := 50

/-- The error values of models.ValidateCustomCode. -/
inductive CustomCodeError
  | tooShort
  | tooLong
  | invalidFormat
  | reserved
deriving DecidableEq

/-- One character of the class `[a-zA-Z0-9_-]` of `customCodeRegex`. -/
def customCodeChar (c : Char) : Bool :=
  ('a' ≤ c && c ≤ 'z') || ('A' ≤ c && c ≤ 'Z') || ('0' ≤ c && c ≤ '9') ||
    c = '_' || c = '-'

/-- The fixed `reservedPatterns` list of the source. -/
def reservedList : List String :=
  ["api", "www", "admin", "root", "null", "undefined"]

/-- `models.ValidateCustomCode`: empty is allowed; then byte-length bounds,
then the `^[a-zA-Z0-9_-]+$` regex (the code is non-empty here, so the
regex is an all-characters check), then the case-insensitive reserved
comparison. -/
def ValidateCustomCode (code : String) : Except CustomCodeError Unit :=
  if code = "" then .ok ()
  else if byteLen code.data < MinCustomCodeLength then .error .tooShort
  else if byteLen code.data > MaxCustomCodeLength then .error .tooLong
  else if !(code.data.all customCodeChar) then .error .invalidFormat
  else if reservedList.contains (lowerStr code) then .error .reserved
  else .ok ()

/-! ### A model of Go net/url, as used by ValidateURL and NormalizeURL

The source calls the standard library's `url.Parse` and `URL.String`.
The embedding below reproduces their behaviour on the URL shapes the
claims exercise: fragment split at the first '#', scheme recognition,
query / ForceQuery split at the first '?', authority up to the first '/',
host validation of ports and of the bracket form, and reassembly.
Out-of-scope corners, each irrelevant to every claim and documented here:
userinfo is kept inside the host blob rather than split at '@';
percent-escape validation and re-escaping of exotic characters are not
modelled (no input in the claims contains '%', '@' or characters needing
escapes); IDNA and Unicode case folding are not modelled (hosts are
ASCII). -/

/-- The components of a parsed URL (net/url.URL restricted to the fields
the source reads or writes).  `forceQuery` with empty `rawQuery` renders
as a bare '?', matching net/url's ForceQuery. -/
structure GoURL where
  scheme : String
  host : String
  path : String
  forceQuery : Bool
  rawQuery : String
  fragment : String
deriving DecidableEq

/-- net/url `validOptionalPort`: empty, or ':' followed by digits only. -/
def validOptionalPort : List Char → Bool
  | [] => true
  | c :: cs => c = ':' && cs.all (fun d => '0' ≤ d && d ≤ '9')

/-- net/url `parseHost` (modulo the unscoped corners noted above): the
bracket form needs a closing ']' and a valid optional port after it; a
bare host may end in one valid optional port at its last ':'. -/
def parseHostL (h : List Char) : Option (List Char) :=
  match h with
  | '[' :: _ =>
    match lastIndexOf ']' h with
    | none => none
    | some i => if validOptionalPort (h.drop (i + 1)) then some h else none
  | _ =>
    match lastIndexOf ':' h with
    | none => some h
    | some i => if validOptionalPort (h.drop i) then some h else none

/-- Authority/path split of net/url: the authority runs to the first '/',
the path keeps that '/' (split with cutc = false). -/
def splitSlashKeep : List Char → List Char × List Char
  | [] => ([], [])
  | c :: cs =>
    if c = '/' then ([], c :: cs)
    else
      let p := splitSlashKeep cs
      (c :: p.1, p.2)

/-- Fragment split of url.Parse: at the first '#', fragment may be empty. -/
def fragSplit (l : List Char) : List Char × List Char :=
  match splitFirst '#' l with
  | some p => p
  | none => (l, [])

/-- The part of url.parse after the scheme: ForceQuery / RawQuery split at
the first '?', then either an authority introduced by "//" (host checked
by `parseHostL`) or no authority at all (opaque / rooted path, host "";
ValidateURL rejects those on the empty host, and NormalizeURL never
reaches them since its input always carries "//"). -/
def parseAfterScheme (scheme : String) (rest frag : List Char) :
    Option GoURL :=
  let q :=
    if rest.getLast? = some '?' && !(rest.dropLast.contains '?') then
      (rest.dropLast, true, ([] : List Char))
    else
      match splitFirst '?' rest with
      | some p => (p.1, false, p.2)
      | none => (rest, false, [])
  match q with
  | (rest, forceQuery, rawQuery) =>
    if rest.take 2 = ['/', '/'] then
      match splitSlashKeep (rest.drop 2) with
      | (auth, path) =>
        match parseHostL auth with
        | none => none
        | some host =>
          some ⟨scheme, String.mk host, String.mk path, forceQuery,
            String.mk rawQuery, String.mk frag⟩
    else
      some ⟨scheme, "", String.mk rest, forceQuery, String.mk rawQuery,
        String.mk frag⟩

/-- net/url `getScheme`: longest prefix of scheme characters closed by
':'; a leading digit or a scheme-char run without ':' means no scheme
(rest is the whole input); ':' first is a parse error (`none`). -/
def getSchemeAux (orig : List Char) (acc : List Char) :
    List Char → Option (List Char × List Char)
  | [] => some ([], orig)
  | c :: cs =>
    if ('a' ≤ c && c ≤ 'z') || ('A' ≤ c && c ≤ 'Z') then
      getSchemeAux orig (acc ++ [c]) cs
    else if ('0' ≤ c && c ≤ '9') || c = '+' || c = '-' || c = '.' then
      if acc.isEmpty then some ([], orig) else getSchemeAux orig (acc ++ [c]) cs
    else if c = ':' then
      if acc.isEmpty then none else some (acc, cs)
    else some ([], orig)

def getSchemeL (l : List Char) : Option (List Char × List Char) :=
  getSchemeAux l [] l

/-- url.Parse on an arbitrary string, to the fidelity ValidateURL needs:
fragment first, then scheme (lower-cased by Parse), then
`parseAfterScheme`.  A scheme-less result keeps host = "" (the source's
extra scheme-less error cases and its authority parsing for scheme-less
"//x" inputs all land in ValidateURL's empty-scheme rejection, so the
verdict is identical). -/
def goParse (s : String) : Option GoURL :=
  match fragSplit s.data with
  | (base, frag) =>
    match getSchemeL base with
    | none => none
    | some (schemeL, rest) =>
      if schemeL.isEmpty then
        some ⟨"", "", String.mk rest, false, "", String.mk frag⟩
      else parseAfterScheme (String.mk (schemeL.map lowerChar)) rest frag

/-- url.Parse for strings that begin with the literal "http://" or
"https://" — the only strings NormalizeURL ever parses, because it first
prepends "https://" to anything else. -/
def parsePrefixed (s : String) : Option GoURL :=
  match fragSplit s.data with
  | (base, frag) =>
    if base.take 7 = "http://".data then
      parseAfterScheme "http" (base.drop 5) frag
    else if base.take 8 = "https://".data then
      parseAfterScheme "https" (base.drop 6) frag
    else none

/-- net/url `URL.String` on the component record (no re-escaping, see the
section comment): scheme, ':', "//" when a host or path is present, host,
path, '?' + query when forced or non-empty, '#' + fragment when
non-empty. -/
def GoURL.render (u : GoURL) : String :=
  u.scheme ++ ":" ++
    (if u.host ≠ "" ∨ u.path ≠ "" then "//" else "") ++
    u.host ++ u.path ++
    (if u.forceQuery ∨ u.rawQuery ≠ "" then "?" ++ u.rawQuery else "") ++
    (if u.fragment ≠ "" then "#" ++ u.fragment else "")

/-! ### URL validation and normalization (models.ValidateURL / NormalizeURL) -/

/-- Source constant `MaxURLLength`. -/
def MaxURLLength : Nat := 2048

/-- The error values of models.ValidateURL. -/
inductive URLError
  | invalidURL
  | urlTooLong
  | maliciousURL
deriving DecidableEq

/-- Occurrence of `ext` followed by end-of-string, '?' or '#' — the
source regexes of shape `(?i)\.ext($|[?]|[#])`, applied to the lowered
input (equivalent to the case-insensitive flag). -/
def extMatch (ext : List Char) : List Char → Bool
  | [] => false
  | l@(_ :: cs) =>
    (startsWithL l ext &&
      (let r := l.drop ext.length
       r.isEmpty || r.headD ' ' = '?' || r.headD ' ' = '#')) ||
    extMatch ext cs

/-- `checkMaliciousURL`: the script-injection scheme pattern
`(?i)(javascript|data|vbscript):` and the four suspicious file
extensions. -/
def checkMaliciousURL (s : String) : Bool :=
  let ls := s.data.map lowerChar
  containsSub ls "javascript:".data || containsSub ls "data:".data ||
    containsSub ls "vbscript:".data ||
    extMatch ".exe".data ls || extMatch ".bat".data ls ||
    extMatch ".scr".data ls || extMatch ".zip".data ls

/-- `models.ValidateURL`: non-empty, at most 2048 bytes, parses, scheme
in {http, https} (empty scheme rejected first, as in the source), a
non-empty host, and no malicious pattern. -/
def ValidateURL (s : String) : Except URLError Unit :=
  if s = "" then .error .invalidURL
  else if byteLen s.data > MaxURLLength then .error .urlTooLong
  else
    match goParse s with
    | none => .error .invalidURL
    | some u =>
      if u.scheme = "" then .error .invalidURL
      else if u.scheme ≠ "http" ∧ u.scheme ≠ "https" then .error .invalidURL
      else if u.host = "" then .error .invalidURL
      else if checkMaliciousURL s then .error .maliciousURL
      else .ok ()

/-- `models.NormalizeURL`: prepend "https://" unless the raw string has
the exact (case-sensitive) prefix "http://" or "https://"; parse; lower
the host; drop a path that is exactly "/"; strip a ":80" suffix of the
host for http and ":443" for https by truncating the host at its first
':'; reassemble.  Parse failure is the source's error return. -/
def NormalizeURL (raw : String) : Option String :=
  let raw :=
    if hasPre raw "http://" || hasPre raw "https://" then raw
    else "https://" ++ raw
  match parsePrefixed raw with
  | none => none
  | some u =>
    let u := { u with host := lowerStr u.host }
    let u := if u.path = "/" then { u with path := "" } else u
    let u :=
      if (u.scheme = "http" && hasSuf u.host ":80") ||
          (u.scheme = "https" && hasSuf u.host ":443") then
        { u with host := String.mk (takeUntilColon u.host.data) }
      else u
    some u.render

/-! ### Service layer (the shortener service of the backend)

The `database.URLRepository` dependency becomes an oracle record: the
lookup result of `GetURLByShortCode`, whether `CreateURL` / `UpdateURL`
report an error for a given code (which is how a store uniqueness
violation reaches the service), and the `IsReservedCode` answer.  The
random generator becomes a sequence `gen` of the codes produced on
successive attempts (the adaptive length growth only changes which codes
the sequence contains, never the control flow modelled here). -/

/-- `shortener.Config` (ClickTimeout in seconds). -/
structure Config where
  maxRetries : Nat
  baseURL : String
  defaultCodeLen : Nat
  maxCustomCodeLen : Nat
  collisionThreshold : Nat
  clickTimeoutSeconds : Nat
  enableAnalytics : Bool
  anonymizeIPs : Bool
  respectDNT : Bool
deriving DecidableEq

/-- `shortener.DefaultConfig`. -/
def DefaultConfig : Config where
  maxRetries := 5
  baseURL := "http://localhost:8080"
  defaultCodeLen := 7
  maxCustomCodeLen := 50
  collisionThreshold := 3
  clickTimeoutSeconds := 5
  enableAnalytics := true
  anonymizeIPs := true
  respectDNT := true

/-- The service-level error values (types.go together with the wrapped
model errors the service hands back). -/
inductive ServiceError
  | invalidURL (e : URLError)
  | normalizeFailed
  | customCode (e : CustomCodeError)
  | reservedCheckFailed
  | customCodeTaken
  | tooManyRetries (lastCollision : Option String)
  | createFailed (code : String)
  | urlNotFound
  | urlExpired
  | urlInactive
  | updateFailed
deriving DecidableEq

/-- The repository oracle (database.URLRepository as seen from the
service). -/
structure RepoOracle where
  lookup : String → Option URL
  createFails : String → Bool
  updateFails : String → Bool
  isReservedCode : String → Bool

/-- `shortener.CreateURLRequest` (the UserID field, unused by the
service, is omitted).  There is no isActive field: the creation interface
cannot request an inactive link. -/
structure CreateURLRequest where
  url : String
  customCode : String
  expiresAt : Option Int
deriving DecidableEq

/-- `shortener.UpdateURLRequest`. -/
structure UpdateURLRequest where
  targetURL : String
  isActive : Option Bool
  expiresAt : Option Int
deriving DecidableEq

/-- `service.GetURLForRedirect` (the fire-and-forget click recording has
no effect on the returned value and is not modelled): store lookup, then
the accessibility check, distinguishing the expired and the inactive
error inside the inaccessible branch. -/
def GetURLForRedirect (repo : String → Option URL) (now : Int)
    (shortCode : String) : Except ServiceError URL :=
  match repo shortCode with
  | none => .error .urlNotFound
  | some url =>
    if !(url.IsAccessible now) then
      if url.IsExpired now then .error .urlExpired
      else .error .urlInactive
    else .ok url

/-- The attempt loop of `service.generateUniqueCode`.  `fuel` is the
number of attempts left, `attempt` indexes into the generator sequence,
`lastErr` is the last collision detail.  Besides the source's result, the
embedding returns the trace of generated-and-checked candidates, one
entry per loop iteration, to let call counts be stated. -/
def genUniqueAux (gen : Nat → String) (taken : String → Bool) :
    Nat → Nat → Option String → Except ServiceError String × List String
  | 0, _, lastErr => (.error (.tooManyRetries lastErr), [])
  | fuel + 1, attempt, _lastErr =>
    let code := gen attempt
    if taken code then
      let r := genUniqueAux gen taken fuel (attempt + 1) (some code)
      (r.1, code :: r.2)
    else (.ok code, [code])

/-- `service.generateUniqueCode`: up to `maxRetries` attempts, each one
generating a candidate and checking the store; a candidate the store does
not know is returned at once; exhaustion yields ErrTooManyRetries wrapped
around the last collision. -/
def GenerateUniqueCode (gen : Nat → String) (taken : String → Bool)
    (maxRetries : Nat) : Except ServiceError String × List String :=
  genUniqueAux gen taken maxRetries 0 none

/-- `service.ValidateCustomCode`: model validation, then the dynamic
reserved-code check of the store (which reuses models.ErrReservedCode),
then availability via a store lookup (a hit is ErrCustomCodeTaken). -/
def ServiceValidateCustomCode (repo : RepoOracle) (code : String) :
    Except ServiceError Unit :=
  match ValidateCustomCode code with
  | .error e => .error (.customCode e)
  | .ok _ =>
    if repo.isReservedCode code then .error (.customCode .reserved)
    else if (repo.lookup code).isSome then .error .customCodeTaken
    else .ok ()

/-- `service.CreateShortURL`: validate and normalize the target, settle
the short code (custom path or the collision-handling generator), build
the URL model with isActive = true and the request's expiry, and write it
once; any store error on that single write is returned as the fatal
"failed to create URL" error.  `id`/`createdAt` are store-assigned and
left at 0 here. -/
def CreateShortURL (repo : RepoOracle) (gen : Nat → String)
    (config : Config) (req : CreateURLRequest) : Except ServiceError URL :=
  match ValidateURL req.url with
  | .error e => .error (.invalidURL e)
  | .ok _ =>
    match NormalizeURL req.url with
    | none => .error .normalizeFailed
    | some normalizedURL =>
      let codeRes : Except ServiceError String :=
        if req.customCode ≠ "" then
          match ServiceValidateCustomCode repo req.customCode with
          | .error e => .error e
          | .ok _ => .ok req.customCode
        else
          (GenerateUniqueCode gen (fun c => (repo.lookup c).isSome)
            config.maxRetries).1
      match codeRes with
      | .error e => .error e
      | .ok shortCode =>
        let url : URL :=
          { id := 0, shortCode := shortCode, targetURL := normalizedURL,
            isActive := true, createdAt := 0, expiresAt := req.expiresAt }
        if repo.createFails shortCode then .error (.createFailed shortCode)
        else .ok url

/-- The `if req.IsActive != nil` step of service.UpdateURL. -/
def applyIsActive (req : UpdateURLRequest) (u : URL) : URL :=
  match req.isActive with
  | some b => { u with isActive := b }
  | none => u

/-- The `if req.ExpiresAt != nil` step of service.UpdateURL. -/
def applyExpiresAt (req : UpdateURLRequest) (u : URL) : URL :=
  match req.expiresAt with
  | some t => { u with expiresAt := some t }
  | none => u

/-- `service.UpdateURL`: fetch by code, optionally replace the target
(validated and normalized), optionally replace the active flag and the
expiry, then persist; the fetched record's code is reused unchanged. -/
def UpdateURL (repo : RepoOracle) (shortCode : String)
    (req : UpdateURLRequest) : Except ServiceError URL :=
  match repo.lookup shortCode with
  | none => .error .urlNotFound
  | some url =>
    let step1 : Except ServiceError URL :=
      if req.targetURL ≠ "" then
        match ValidateURL req.targetURL with
        | .error e => .error (.invalidURL e)
        | .ok _ =>
          match NormalizeURL req.targetURL with
          | none => .error .normalizeFailed
          | some n => .ok { url with targetURL := n }
      else .ok url
    match step1 with
    | .error e => .error e
    | .ok url1 =>
      if repo.updateFails shortCode then .error .updateFailed
      else .ok (applyExpiresAt req (applyIsActive req url1))

/-- The store effect of DeactivateURL (the repository implementation that
ships in the repository's test double, part of the sources): the entry
stored under the code has its isActive flag cleared in place; a missing
code is an error. -/
def DeactivateStore (store : List URL) (shortCode : String) :
    Option (List URL) :=
  if store.any (fun u => u.shortCode = shortCode) then
    some (store.map (fun u =>
      if u.shortCode = shortCode then { u with isActive := false } else u))
  else none

/-! ### Concrete stores, generators and requests for the evaluations -/

/-- A link that is both inactive and past its expiry at instant 1. -/
def inactiveExpiredURL : URL :=
  { id := 2, shortCode := "wxyz", targetURL := "https://example.com",
    isActive := false, createdAt := 0, expiresAt := some 0 }

/-- A one-entry store holding `inactiveExpiredURL` under "wxyz". -/
def repoInactiveExpired : String → Option URL := fun c =>
  if c = "wxyz" then some inactiveExpiredURL else none

/-- An active, never-expiring link stored under the short code "a!",
which fails `IsValidCode` (too short and '!' outside the alphabet). -/
def invalidCodeURL : URL :=
  { id := 1, shortCode := "a!", targetURL := "https://example.com",
    isActive := true, createdAt := 0, expiresAt := none }

/-- A one-entry store holding `invalidCodeURL` under "a!". -/
def repoWithInvalidCode : String → Option URL := fun c =>
  if c = "a!" then some invalidCodeURL else none

/-- The empty store. -/
def emptyRepo : String → Option URL := fun _ => none

/-- A generator sequence: "aaaaaaa" on the first attempt, "baaaaaa"
afterwards. -/
def seqGen : Nat → String := fun i => if i = 0 then "aaaaaaa" else "baaaaaa"

/-- Repository oracle for a write-time uniqueness conflict: the lookup
finds nothing (no pre-write collision), but the single CreateURL write of
"aaaaaaa" fails — the concurrent-writer scenario. -/
def writeConflictRepo : RepoOracle :=
  { lookup := fun _ => none, createFails := fun c => c = "aaaaaaa",
    updateFails := fun _ => false, isReservedCode := fun _ => false }

/-- An existing link occupying the code "aaaaaaa". -/
def occupyingURL : URL :=
  { id := 9, shortCode := "aaaaaaa", targetURL := "https://taken.example",
    isActive := true, createdAt := 0, expiresAt := none }

/-- Repository oracle for a pre-write collision on the same candidate:
the lookup finds "aaaaaaa" already taken, and writes always succeed. -/
def preCollisionRepo : RepoOracle :=
  { lookup := fun c => if c = "aaaaaaa" then some occupyingURL else none,
    createFails := fun _ => false, updateFails := fun _ => false,
    isReservedCode := fun _ => false }

/-- Repository oracle where every operation succeeds. -/
def cleanRepo : RepoOracle :=
  { lookup := fun _ => none, createFails := fun _ => false,
    updateFails := fun _ => false, isReservedCode := fun _ => false }

/-- A plain creation request: random code path, no expiry. -/
def simpleCreateReq : CreateURLRequest :=
  { url := "https://example.com", customCode := "", expiresAt := none }

/-- The link `CreateShortURL` builds for `simpleCreateReq` with a
generator producing "abcdefg" and a clean repository. -/
def cleanCreateResult : URL :=
  { id := 0, shortCode := "abcdefg", targetURL := "https://example.com",
    isActive := true, createdAt := 0, expiresAt := none }

/-- A stored link for the update and deactivate checks. -/
def c9URL : URL :=
  { id := 7, shortCode := "abcd", targetURL := "https://example.com",
    isActive := true, createdAt := 3, expiresAt := none }

/-- Repository oracle holding `c9URL` under "abcd". -/
def c9Repo : RepoOracle :=
  { lookup := fun c => if c = "abcd" then some c9URL else none,
    createFails := fun _ => false, updateFails := fun _ => false,
    isReservedCode := fun _ => false }

/-- An update request flipping the active flag and setting an expiry. -/
def c9Req : UpdateURLRequest :=
  { targetURL := "", isActive := some false, expiresAt := some 5 }

/-- `c9URL` after `c9Req` is applied. -/
def c9Updated : URL := { c9URL with isActive := false, expiresAt := some 5 }

/-- `c9URL` after deactivation. -/
def c9Deactivated : URL := { c9URL with isActive := false }

/-! ## Theorems -/

/-! ### C2 — a uniqueness violation on the final write is fatal -/

/-- C2 counterexample: with a store that knows no code (so the pre-write
existence check passes first try) but whose single CreateURL write of the
candidate fails with its uniqueness violation, CreateShortURL returns the
fatal create error and never retries — even though the very next
candidate of the same generator ("baaaaaa") is free, as the second
conjunct shows: when the same first candidate is instead caught by the
pre-write check, the service does retry and succeeds with it. -/
theorem CreateShortURL_write_conflict_cex :
    CreateShortURL writeConflictRepo seqGen DefaultConfig simpleCreateReq =
      .error (.createFailed "aaaaaaa") ∧
    CreateShortURL preCollisionRepo seqGen DefaultConfig simpleCreateReq =
      .ok { id := 0, shortCode := "baaaaaa",
            targetURL := "https://example.com", isActive := true,
            createdAt := 0, expiresAt := none } := by
  refine ⟨by decide, by decide⟩

/-- C2 (amended): in the random-code path, when the generator loop has
settled on a free candidate and the store's final CreateURL write then
fails (which is how a uniqueness violation from a concurrent writer
surfaces), CreateShortURL returns the fatal createFailed error; only
collisions seen by the pre-write existence check trigger retries. -/
theorem CreateShortURL_write_conflict_fatal (repo : RepoOracle)
    (gen : Nat → String) (config : Config) (req : CreateURLRequest)
    (c n : String)
    (hcc : req.customCode = "")
    (hval : ValidateURL req.url = .ok ())
    (hnorm : NormalizeURL req.url = some n)
    (hgen : (GenerateUniqueCode gen (fun s => (repo.lookup s).isSome)
      config.maxRetries).1 = .ok c)
    (hfail : repo.createFails c = true) :
    CreateShortURL repo gen config req = .error (.createFailed c) := by
  unfold CreateShortURL
  rw [hval, hnorm, hcc]
  simp [hgen, hfail]

/-- Witness for C2's amended theorem at the concrete conflicting store. -/
theorem CreateShortURL_write_conflict_fatal_witness :
    CreateShortURL writeConflictRepo seqGen DefaultConfig simpleCreateReq =
      .error (.createFailed "aaaaaaa") :=
  CreateShortURL_write_conflict_fatal writeConflictRepo seqGen DefaultConfig
    simpleCreateReq "aaaaaaa" "https://example.com" rfl (by decide)
    (by decide) (by decide) (by decide)

/-! ### C9 — short codes are immutable after creation -/

/-- Helper: field projections of the IsActive update step. -/
theorem applyIsActive_fields (req : UpdateURLRequest) (u : URL) :
    (applyIsActive req u).shortCode = u.shortCode ∧
    (applyIsActive req u).id = u.id ∧
    (applyIsActive req u).createdAt = u.createdAt := by
  unfold applyIsActive
  cases req.isActive <;> simp

/-- Helper: field projections of the ExpiresAt update step. -/
theorem applyExpiresAt_fields (req : UpdateURLRequest) (u : URL) :
    (applyExpiresAt req u).shortCode = u.shortCode ∧
    (applyExpiresAt req u).id = u.id ∧
    (applyExpiresAt req u).createdAt = u.createdAt := by
  unfold applyExpiresAt
  cases req.expiresAt <;> simp

/-- Helper: deactivation only rewrites the isActive flag, so every other
projection of the store is untouched. -/
theorem deactivate_proj {α : Type} (store : List URL) (shortCode : String)
    (proj : URL → α) (hproj : ∀ u, proj { u with isActive := false } = proj u) :
    (store.map (fun u =>
      if u.shortCode = shortCode then { u with isActive := false } else u)).map
        proj = store.map proj := by
  induction store with
  | nil => rfl
  | cons a t ih =>
    simp only [List.map_cons, ih, List.cons.injEq]
    refine ⟨?_, trivial⟩
    by_cases hc : a.shortCode = shortCode
    · rw [if_pos hc]; exact hproj a
    · rw [if_neg hc]

/-- C9: the short code of a link is immutable once assigned.  UpdateURL
only ever persists a record with the fetched link's code (and id and
creation time); DeactivateStore keeps every stored entry under its code
and changes nothing but the isActive flag. -/
theorem update_and_deactivate_preserve_code :
    (∀ (repo : RepoOracle) (shortCode : String) (req : UpdateURLRequest)
        (u' : URL),
      UpdateURL repo shortCode req = .ok u' →
      ∃ u, repo.lookup shortCode = some u ∧ u'.shortCode = u.shortCode ∧
        u'.id = u.id ∧ u'.createdAt = u.createdAt) ∧
    (∀ (store : List URL) (shortCode : String) (store' : List URL),
      DeactivateStore store shortCode = some store' →
      store'.map URL.shortCode = store.map URL.shortCode ∧
      store'.map URL.targetURL = store.map URL.targetURL ∧
      store'.map URL.id = store.map URL.id ∧
      store'.map URL.createdAt = store.map URL.createdAt ∧
      store'.map URL.expiresAt = store.map URL.expiresAt) := by
  constructor
  · intro repo shortCode req u' h
    unfold UpdateURL at h
    cases hlook : repo.lookup shortCode with
    | none => simp only [hlook] at h; exact Except.noConfusion h
    | some u =>
      simp only [hlook] at h
      refine ⟨u, rfl, ?_⟩
      have tail : ∀ url1 : URL, url1.shortCode = u.shortCode →
          url1.id = u.id → url1.createdAt = u.createdAt →
          (if repo.updateFails shortCode then
            (Except.error ServiceError.updateFailed : Except ServiceError URL)
           else .ok (applyExpiresAt req (applyIsActive req url1))) = .ok u' →
          u'.shortCode = u.shortCode ∧ u'.id = u.id ∧
            u'.createdAt = u.createdAt := by
        intro url1 e1 e2 e3 hh
        by_cases hu : repo.updateFails shortCode
        · rw [if_pos hu] at hh; exact absurd hh (by simp)
        · rw [if_neg hu] at hh
          injection hh with hinj
          subst hinj
          obtain ⟨a1, a2, a3⟩ := applyExpiresAt_fields req (applyIsActive req url1)
          obtain ⟨b1, b2, b3⟩ := applyIsActive_fields req url1
          exact ⟨by rw [a1, b1, e1], by rw [a2, b2, e2], by rw [a3, b3, e3]⟩
      by_cases ht : req.targetURL ≠ ""
      · rw [if_pos ht] at h
        cases hv : ValidateURL req.targetURL with
        | error e => simp only [hv] at h; exact Except.noConfusion h
        | ok w =>
          simp only [hv] at h
          cases hn : NormalizeURL req.targetURL with
          | none => simp only [hn] at h; exact Except.noConfusion h
          | some nrm =>
            simp only [hn] at h
            exact tail { u with targetURL := nrm } rfl rfl rfl h
      · rw [if_neg ht] at h
        exact tail u rfl rfl rfl h
  · intro store shortCode store' h
    unfold DeactivateStore at h
    by_cases hex : store.any (fun u => u.shortCode = shortCode)
    · rw [if_pos hex] at h
      injection h with h'
      subst h'
      refine ⟨?_, ?_, ?_, ?_, ?_⟩ <;>
        exact deactivate_proj store shortCode _ (fun u => rfl)
    · rw [if_neg hex] at h
      exact absurd h (by simp)

/-- Witness for C9: a concrete update (flipping isActive and setting an
expiry) and a concrete deactivation, both leaving code, id, creation time
and target untouched. -/
theorem update_and_deactivate_preserve_code_witness :
    (∃ u, c9Repo.lookup "abcd" = some u ∧ c9Updated.shortCode = u.shortCode ∧
      c9Updated.id = u.id ∧ c9Updated.createdAt = u.createdAt) ∧
    ([c9Deactivated].map URL.shortCode = [c9URL].map URL.shortCode ∧
     [c9Deactivated].map URL.targetURL = [c9URL].map URL.targetURL ∧
     [c9Deactivated].map URL.id = [c9URL].map URL.id ∧
     [c9Deactivated].map URL.createdAt = [c9URL].map URL.createdAt ∧
     [c9Deactivated].map URL.expiresAt = [c9URL].map URL.expiresAt) :=
  ⟨update_and_deactivate_preserve_code.1 c9Repo "abcd" c9Req c9Updated
     (by decide),
   update_and_deactivate_preserve_code.2 [c9URL] "abcd" [c9Deactivated]
     (by decide)⟩

/-! ### C10 — created links start active with the requested expiry -/

/-- C10: every link a successful CreateShortURL call returns has
isActive = true — the request type offers no way to ask for an inactive
link — and carries exactly the expiry of the request (absent when none
was supplied). -/
theorem CreateShortURL_sets_active_and_expiry (repo : RepoOracle)
    (gen : Nat → String) (config : Config) (req : CreateURLRequest)
    (url : URL) (h : CreateShortURL repo gen config req = .ok url) :
    url.isActive = true ∧ url.expiresAt = req.expiresAt := by
  unfold CreateShortURL at h
  cases hv : ValidateURL req.url with
  | error e => rw [hv] at h; exact absurd h (by simp)
  | ok _ =>
    rw [hv] at h
    cases hn : NormalizeURL req.url with
    | none => rw [hn] at h; exact absurd h (by simp)
    | some nrm =>
      rw [hn] at h
      simp only [] at h
      split at h
      · exact absurd h (by simp)
      · split at h
        · exact absurd h (by simp)
        · injection h with hinj
          subst hinj
          exact ⟨rfl, rfl⟩

/-- Witness for C10: the concrete clean creation. -/
theorem CreateShortURL_sets_active_and_expiry_witness :
    cleanCreateResult.isActive = true ∧
    cleanCreateResult.expiresAt = simpleCreateReq.expiresAt :=
  CreateShortURL_sets_active_and_expiry cleanRepo (fun _ => "abcdefg")
    DefaultConfig simpleCreateReq cleanCreateResult (by decide)

/-! ### C1 — precedence of Inactive vs Expired at resolution -/

/-- C1 counterexample: a stored link that is both inactive
(isActive = false) and expired resolves to the expired error, not the
inactive one — `GetURLForRedirect` tests `IsExpired` first inside the
inaccessible branch, so the claimed "inactive wins" precedence fails. -/
theorem GetURLForRedirect_inactive_expired_cex :
    inactiveExpiredURL.isActive = false ∧
    inactiveExpiredURL.IsExpired 1 = true ∧
    GetURLForRedirect repoInactiveExpired 1 "wxyz" = .error .urlExpired ∧
    ServiceError.urlExpired ≠ ServiceError.urlInactive := by
  refine ⟨rfl, rfl, by decide, by decide⟩

/-- C1 (amended): resolution checks expiry first.  For every stored link,
an expired link reports Expired whether or not it is active; Inactive is
reported only for an inactive link that is not expired; an active,
unexpired link resolves successfully. -/
theorem GetURLForRedirect_expiry_precedence (repo : String → Option URL)
    (now : Int) (code : String) (u : URL) (h : repo code = some u) :
    GetURLForRedirect repo now code =
      (if u.IsExpired now then .error .urlExpired
       else if u.isActive then .ok u else .error .urlInactive) := by
  unfold GetURLForRedirect
  rw [h]
  cases hE : u.IsExpired now <;> cases hA : u.isActive <;>
    simp [URL.IsAccessible, hE, hA]

/-- Witness for C1's amended theorem at the concrete inactive-and-expired
store. -/
theorem GetURLForRedirect_expiry_precedence_witness :
    GetURLForRedirect repoInactiveExpired 1 "wxyz" =
      (if inactiveExpiredURL.IsExpired 1 then .error .urlExpired
       else if inactiveExpiredURL.isActive then .ok inactiveExpiredURL
       else .error .urlInactive) :=
  GetURLForRedirect_expiry_precedence repoInactiveExpired 1 "wxyz"
    inactiveExpiredURL (by decide)

/-! ### C3 — no IsValidCode gate in front of resolution -/

/-- C3 counterexample: "a!" fails `IsValidCode`, yet resolution still
consults the store for it — with "a!" stored the lookup succeeds and the
redirect is served, and with an empty store the same call reports
not-found; no rejection happens before the store call. -/
theorem GetURLForRedirect_no_code_validation_cex :
    IsValidCode "a!" = false ∧
    GetURLForRedirect repoWithInvalidCode 0 "a!" = .ok invalidCodeURL ∧
    GetURLForRedirect emptyRepo 0 "a!" = .error .urlNotFound := by
  refine ⟨by decide, by decide, by decide⟩

/-- C3 (amended): resolution never applies `IsValidCode`; every code,
valid or not, goes straight to the store lookup, and an accessible stored
link is returned even under a code that fails `IsValidCode`. -/
theorem GetURLForRedirect_skips_IsValidCode (repo : String → Option URL)
    (now : Int) (code : String) (u : URL)
    (_hinvalid : IsValidCode code = false) (h : repo code = some u)
    (hacc : u.IsAccessible now = true) :
    GetURLForRedirect repo now code = .ok u := by
  unfold GetURLForRedirect
  rw [h]
  simp [hacc]

/-- Witness for C3's amended theorem at the concrete store holding the
invalid code "a!". -/
theorem GetURLForRedirect_skips_IsValidCode_witness :
    GetURLForRedirect repoWithInvalidCode 0 "a!" = .ok invalidCodeURL :=
  GetURLForRedirect_skips_IsValidCode repoWithInvalidCode 0 "a!"
    invalidCodeURL (by decide) (by decide) (by decide)

/-! ### C4 — exhaustion of the collision-retry budget -/

/-- Helper: when every candidate in range collides, the attempt loop of
generateUniqueCode runs through its whole fuel, returns TooManyRetries
holding the last collision, and its trace lists exactly the candidates of
the window. -/
theorem genUniqueAux_all_taken (gen : Nat → String) (taken : String → Bool) :
    ∀ (fuel start : Nat) (lastErr : Option String),
      (∀ i, i < fuel → taken (gen (start + i)) = true) →
      genUniqueAux gen taken fuel start lastErr =
        (.error (.tooManyRetries
          (match fuel with | 0 => lastErr | f + 1 => some (gen (start + f)))),
         (List.range fuel).map (fun i => gen (start + i))) := by
  intro fuel
  induction fuel with
  | zero => intro start lastErr _; simp [genUniqueAux]
  | succ f ih =>
    intro start lastErr h
    have h0 : taken (gen start) = true := by
      have := h 0 (by omega)
      simpa using this
    have ih' := ih (start + 1) (some (gen start)) (fun i hi => by
      have := h (i + 1) (by omega)
      have e : start + (i + 1) = start + 1 + i := by omega
      rwa [e] at this)
    simp only [genUniqueAux, h0, if_true, ih', Prod.mk.injEq]
    have eadd : ∀ i, start + 1 + i = start + (i + 1) := fun i => by omega
    constructor
    · cases f with
      | zero => simp
      | succ g => simp [eadd g]
    · rw [List.range_succ_eq_map]
      simp [List.map_map, Function.comp, Nat.succ_eq_add_one, eadd]

/-- C4: with the default configuration (maxRetries = 5) and a store in
which every generated candidate already exists, generateUniqueCode makes
exactly five generate-and-check attempts — the trace is precisely the
first five candidates — and then fails with TooManyRetries carrying only
the last collision; no intermediate collision is surfaced. -/
theorem GenerateUniqueCode_exhausts_after_maxRetries (gen : Nat → String)
    (taken : String → Bool)
    (h : ∀ i, i < DefaultConfig.maxRetries → taken (gen i) = true) :
    (GenerateUniqueCode gen taken DefaultConfig.maxRetries).1 =
      .error (.tooManyRetries (some (gen 4))) ∧
    (GenerateUniqueCode gen taken DefaultConfig.maxRetries).2 =
      [gen 0, gen 1, gen 2, gen 3, gen 4] := by
  have e := genUniqueAux_all_taken gen taken 5 0 none (fun i hi => by
    have := h i (by simpa [DefaultConfig] using hi)
    simpa using this)
  constructor
  · unfold GenerateUniqueCode
    rw [show DefaultConfig.maxRetries = 5 from rfl, e]
  · unfold GenerateUniqueCode
    rw [show DefaultConfig.maxRetries = 5 from rfl, e]
    rfl

/-- Witness for C4 with a constantly colliding store and a constant
generator stub. -/
theorem GenerateUniqueCode_exhausts_after_maxRetries_witness :
    (GenerateUniqueCode (fun _ => "aaaa") (fun _ => true)
        DefaultConfig.maxRetries).1 =
      .error (.tooManyRetries (some "aaaa")) ∧
    (GenerateUniqueCode (fun _ => "aaaa") (fun _ => true)
        DefaultConfig.maxRetries).2 =
      ["aaaa", "aaaa", "aaaa", "aaaa", "aaaa"] :=
  GenerateUniqueCode_exhausts_after_maxRetries (fun _ => "aaaa")
    (fun _ => true) (fun _ _ => rfl)

/-! ### C5 — shape of generated codes -/

/-- Helper: `getD` at an in-range index is a member of the list. -/
theorem getD_mem : ∀ (l : List Char) (i : Nat) (d : Char),
    i < l.length → l.getD i d ∈ l
  | a :: _, 0, _, _ => by simp [List.getD]
  | a :: t, i + 1, d, h => by
    have := getD_mem t i d (by simpa using h)
    simp [List.getD] at this ⊢
    exact Or.inr this

/-- Helper: a value below 62^n has at most n base-62 digits. -/
theorem base62DigitsAux_length :
    ∀ (fuel v n : Nat), v ≤ fuel → v < 62 ^ n →
      (base62DigitsAux fuel v).length ≤ n := by
  intro fuel
  induction fuel with
  | zero =>
    intro v n hv _
    have : v = 0 := by omega
    simp [base62DigitsAux, this]
  | succ f ih =>
    intro v n hvf hv
    by_cases h0 : v = 0
    · simp [base62DigitsAux, h0]
    · cases n with
      | zero =>
        have : v < 1 := by simpa using hv
        omega
      | succ m =>
        have hdiv_le : v / 62 ≤ f := by
          have : v / 62 < v := Nat.div_lt_self (by omega) (by omega)
          omega
        have hdiv_lt : v / 62 < 62 ^ m := by
          rw [Nat.div_lt_iff_lt_mul (by omega : 0 < 62)]
          calc v < 62 ^ (m + 1) := hv
            _ = 62 ^ m * 62 := by ring
        have := ih (v / 62) m hdiv_le hdiv_lt
        simp [base62DigitsAux, h0]
        omega

/-- Helper: every base-62 digit character is drawn from base62Chars. -/
theorem base62DigitsAux_mem :
    ∀ (fuel v : Nat), ∀ c ∈ base62DigitsAux fuel v, c ∈ base62Chars.data := by
  intro fuel
  induction fuel with
  | zero => intro v c hc; simp [base62DigitsAux] at hc
  | succ f ih =>
    intro v c hc
    by_cases h0 : v = 0
    · simp [base62DigitsAux, h0] at hc
    · rw [show base62DigitsAux (f + 1) v =
          base62DigitsAux f (v / 62) ++ [base62Char (v % 62)] from by
        simp [base62DigitsAux, h0]] at hc
      rw [List.mem_append] at hc
      rcases hc with hc | hc
      · exact ih _ c hc
      · have hce : c = base62Char (v % 62) := by simpa using hc
        subst hce
        refine getD_mem _ _ _ ?_
        have h62 : v % 62 < 62 := Nat.mod_lt _ (by omega)
        have hlen : base62Chars.data.length = 62 := rfl
        omega

/-- C5: for every length L in the generator's [4,12] range and every draw
v in the contract range [0, 62^L) of crypto/rand, Generate yields exactly
L characters, all from the 62-symbol alphabet; the draw 0 at the default
length 7 yields "aaaaaaa" (left-padding with the zero symbol 'a'). -/
theorem Generate_length_and_alphabet (L v : Nat)
    (hmin : minCodeLength ≤ L) (_hmax : L ≤ maxCodeLength)
    (hv : v < 62 ^ L) :
    (Generate L v).data.length = L ∧
    (∀ c ∈ (Generate L v).data, c ∈ base62Chars.data) ∧
    Generate defaultCodeLength 0 = "aaaaaaa" := by
  have hmin4 : 4 ≤ L := hmin
  refine ⟨?_, ?_, by decide⟩
  · unfold Generate toBase62
    by_cases h0 : v = 0
    · simp [h0, leftPad]
      omega
    · have hd := base62DigitsAux_length v v L (Nat.le_refl v) hv
      simp [h0, leftPad, base62Digits]
      omega
  · intro c hc
    unfold Generate toBase62 at hc
    by_cases h0 : v = 0
    · rw [if_pos h0] at hc
      have hc' : c ∈ leftPad 'a' L ['a'] := hc
      rw [leftPad, List.mem_append] at hc'
      rcases hc' with hc' | hc'
      · rw [List.eq_of_mem_replicate hc']; decide
      · have hce : c = 'a' := by simpa using hc'
        subst hce; decide
    · rw [if_neg h0] at hc
      have hc' : c ∈ leftPad 'a' L (base62Digits v) := hc
      rw [leftPad, List.mem_append] at hc'
      rcases hc' with hc' | hc'
      · rw [List.eq_of_mem_replicate hc']; decide
      · exact base62DigitsAux_mem v v c hc'

/-- Witness for C5 at length 7 and draw 0. -/
theorem Generate_length_and_alphabet_witness :
    (Generate 7 0).data.length = 7 ∧
    (∀ c ∈ (Generate 7 0).data, c ∈ base62Chars.data) ∧
    Generate defaultCodeLength 0 = "aaaaaaa" :=
  Generate_length_and_alphabet 7 0 (by decide) (by decide) (by norm_num)

/-! ### C6 — custom-code validation -/

/-- Helper: every character of the custom-code class is ASCII, hence one
UTF-8 byte wide. -/
theorem customCodeChar_ascii {c : Char} (h : customCodeChar c = true) :
    utf8Len c = 1 := by
  unfold customCodeChar at h
  simp only [Bool.or_eq_true, Bool.and_eq_true, decide_eq_true_eq] at h
  unfold utf8Len
  rcases h with ((((⟨h1, h2⟩ | ⟨h1, h2⟩) | ⟨h1, h2⟩) | h) | h)
  · rw [Char.le_def] at h2
    have h3 : c.toNat ≤ 122 := h2
    rw [if_pos (by omega)]
  · rw [Char.le_def] at h2
    have h3 : c.toNat ≤ 90 := h2
    rw [if_pos (by omega)]
  · rw [Char.le_def] at h2
    have h3 : c.toNat ≤ 57 := h2
    rw [if_pos (by omega)]
  · subst h; decide
  · subst h; decide

/-- Helper: a character whose lower-cased form is in the custom-code
class is itself in the class (the class is closed under case). -/
theorem customCodeChar_of_lower {c : Char}
    (h : customCodeChar (lowerChar c) = true) : customCodeChar c = true := by
  unfold lowerChar at h
  by_cases hA : 'A' ≤ c ∧ c ≤ 'Z'
  · simp [customCodeChar, hA.1, hA.2]
  · rw [if_neg hA] at h; exact h

/-- Helper: for an all-ASCII list the Go byte length is the rune count. -/
theorem byteLen_eq_length {l : List Char} (h : ∀ c ∈ l, utf8Len c = 1) :
    byteLen l = l.length := by
  induction l with
  | nil => rfl
  | cons a t ih =>
    have ht := ih (fun c hc => h c (by simp [hc]))
    simp only [byteLen, List.map_cons, List.sum_cons, List.length_cons] at *
    rw [h a (by simp), ht]
    omega

/-- Helper: any string whose lower-casing equals a well-formed reserved
word is rejected as reserved (the earlier guards cannot fire). -/
theorem reserved_case (s w : String) (h : lowerStr s = w)
    (hne : w.data ≠ [])
    (hfmt : w.data.all customCodeChar = true)
    (hlen2 : MinCustomCodeLength ≤ w.data.length)
    (hlen50 : w.data.length ≤ MaxCustomCodeLength)
    (hmem : reservedList.contains w = true) :
    ValidateCustomCode s = .error .reserved := by
  have hmap : s.data.map lowerChar = w.data := by
    have hd : (lowerStr s).data = w.data := by rw [h]
    simpa [lowerStr] using hd
  have hptw : ∀ c ∈ s.data, customCodeChar c = true := by
    intro c hc
    have hlc : lowerChar c ∈ w.data := by
      rw [← hmap]; exact List.mem_map_of_mem _ hc
    exact customCodeChar_of_lower (List.all_eq_true.mp hfmt _ hlc)
  have hascii : ∀ c ∈ s.data, utf8Len c = 1 := fun c hc =>
    customCodeChar_ascii (hptw c hc)
  have hlen : s.data.length = w.data.length := by
    have hl := congrArg List.length hmap
    simpa using hl
  have hbl : byteLen s.data = w.data.length := by
    rw [byteLen_eq_length hascii, hlen]
  have hsne : s ≠ "" := by
    intro hs
    apply hne
    rw [← hmap, hs]
    rfl
  have hall : s.data.all customCodeChar = true := List.all_eq_true.mpr hptw
  have hcont : reservedList.contains (lowerStr s) = true := by
    rw [h]; exact hmem
  unfold ValidateCustomCode
  rw [if_neg hsne, if_neg (by omega), if_neg (by omega)]
  simp only [hall, Bool.not_true, Bool.false_eq_true, if_false]
  simpa using hcont

/-- C6: ValidateCustomCode accepts the empty string as "no preference";
rejects byte lengths below 2 as too short and above 50 as too long;
rejects any in-range code containing a character outside [a-zA-Z0-9_-]
as invalid format; rejects, case-insensitively, exactly the members of
the fixed reserved set as reserved; and accepts every other code. -/
theorem ValidateCustomCode_spec :
    ValidateCustomCode "" = .ok () ∧
    (∀ s : String, s ≠ "" → byteLen s.data < MinCustomCodeLength →
      ValidateCustomCode s = .error .tooShort) ∧
    (∀ s : String, byteLen s.data > MaxCustomCodeLength →
      ValidateCustomCode s = .error .tooLong) ∧
    (∀ s : String, MinCustomCodeLength ≤ byteLen s.data →
      byteLen s.data ≤ MaxCustomCodeLength →
      (∃ c ∈ s.data, customCodeChar c = false) →
      ValidateCustomCode s = .error .invalidFormat) ∧
    (∀ s : String, lowerStr s ∈ reservedList →
      ValidateCustomCode s = .error .reserved) ∧
    (∀ s : String, s ≠ "" → MinCustomCodeLength ≤ byteLen s.data →
      byteLen s.data ≤ MaxCustomCodeLength →
      s.data.all customCodeChar = true →
      lowerStr s ∉ reservedList →
      ValidateCustomCode s = .ok ()) := by
  refine ⟨rfl, ?_, ?_, ?_, ?_, ?_⟩
  · intro s hne hlt
    unfold ValidateCustomCode
    rw [if_neg hne, if_pos hlt]
  · intro s hgt
    have hne : s ≠ "" := by
      intro hs
      rw [hs] at hgt
      simp [byteLen, MaxCustomCodeLength] at hgt
    have e2 : MinCustomCodeLength = 2 := rfl
    have e50 : MaxCustomCodeLength = 50 := rfl
    unfold ValidateCustomCode
    rw [if_neg hne, if_neg (by omega), if_pos hgt]
  · intro s h2 h50 hbad
    rcases hbad with ⟨c, hc, hbadc⟩
    have hne : s ≠ "" := by
      intro hs
      rw [hs] at hc
      simp at hc
    have hall : s.data.all customCodeChar = false := by
      rcases hb : s.data.all customCodeChar with _ | _
      · rfl
      · have := List.all_eq_true.mp hb c hc
        rw [this] at hbadc
        exact absurd hbadc (by simp)
    unfold ValidateCustomCode
    rw [if_neg hne, if_neg (by omega), if_neg (by omega)]
    simp [hall]
  · intro s hmem
    have hcases : lowerStr s = "api" ∨ lowerStr s = "www" ∨
        lowerStr s = "admin" ∨ lowerStr s = "root" ∨
        lowerStr s = "null" ∨ lowerStr s = "undefined" := by
      simpa [reservedList] using hmem
    rcases hcases with h | h | h | h | h | h
    · exact reserved_case s "api" h (by decide) (by decide) (by decide)
        (by decide) (by decide)
    · exact reserved_case s "www" h (by decide) (by decide) (by decide)
        (by decide) (by decide)
    · exact reserved_case s "admin" h (by decide) (by decide) (by decide)
        (by decide) (by decide)
    · exact reserved_case s "root" h (by decide) (by decide) (by decide)
        (by decide) (by decide)
    · exact reserved_case s "null" h (by decide) (by decide) (by decide)
        (by decide) (by decide)
    · exact reserved_case s "undefined" h (by decide) (by decide) (by decide)
        (by decide) (by decide)
  · intro s hne h2 h50 hall hnot
    unfold ValidateCustomCode
    rw [if_neg hne, if_neg (by omega), if_neg (by omega)]
    simp only [hall, Bool.not_true, Bool.false_eq_true, if_false]
    simp [hnot]

/-- Witness for C6 at the spec's own test vectors (each conjunct
discharged by the theorem itself). -/
theorem ValidateCustomCode_spec_witness :
    ValidateCustomCode "" = .ok () ∧
    ValidateCustomCode "a" = .error .tooShort ∧
    ValidateCustomCode (String.mk (List.replicate 51 'x')) =
      .error .tooLong ∧
    ValidateCustomCode "my@code" = .error .invalidFormat ∧
    ValidateCustomCode "Admin" = .error .reserved ∧
    ValidateCustomCode "my-link" = .ok () :=
  ⟨ValidateCustomCode_spec.1,
   ValidateCustomCode_spec.2.1 "a" (by decide) (by decide),
   ValidateCustomCode_spec.2.2.1 (String.mk (List.replicate 51 'x'))
     (by decide),
   ValidateCustomCode_spec.2.2.2.1 "my@code" (by decide) (by decide)
     ⟨'@', by decide, by decide⟩,
   ValidateCustomCode_spec.2.2.2.2.1 "Admin" (by decide),
   ValidateCustomCode_spec.2.2.2.2.2 "my-link" (by decide) (by decide)
     (by decide) (by decide) (by decide)⟩

/-! ### C7 — idempotence of NormalizeURL -/

/-- C7 (code bug): NormalizeURL is not idempotent on every valid input.
The input "http://:80" passes ValidateURL (its host ":80" is non-empty),
but default-port stripping truncates the host at its first ':' leaving an
empty host, so the first normalization yields "http:", and normalizing
that again prepends "https://" (the prefix test fails on "http:") and
yields "https://http:". -/
theorem NormalizeURL_not_idempotent_on_valid_input :
    ValidateURL "http://:80" = .ok () ∧
    NormalizeURL "http://:80" = some "http:" ∧
    (NormalizeURL "http://:80").bind NormalizeURL = some "https://http:" ∧
    (NormalizeURL "http://:80").bind NormalizeURL ≠ NormalizeURL "http://:80" := by
  refine ⟨by decide, by decide, by decide, by decide⟩

/-! ### C8 — concrete normalization results -/

/-- C8 counterexample: the scheme test of NormalizeURL is the
case-sensitive `strings.HasPrefix`, so "HTTP://EXAMPLE.COM:80/" is not
recognized as carrying a scheme; "https://" is prepended and the original
upper-case scheme is swallowed into the authority, giving
"https://http://EXAMPLE.COM:80/" instead of the claimed
"http://example.com". -/
theorem NormalizeURL_uppercase_scheme_cex :
    NormalizeURL "HTTP://EXAMPLE.COM:80/" =
      some "https://http://EXAMPLE.COM:80/" ∧
    NormalizeURL "HTTP://EXAMPLE.COM:80/" ≠ some "http://example.com" := by
  refine ⟨by decide, by decide⟩

/-- C8 (amended): normalize("example.com") = "https://example.com"; the
upper-case-scheme input is mangled as the counterexample shows, while the
lower-case variant "http://EXAMPLE.COM:80/" does lower the host, strip
the default port and drop the bare "/" to give "http://example.com". -/
theorem NormalizeURL_examples :
    NormalizeURL "example.com" = some "https://example.com" ∧
    NormalizeURL "HTTP://EXAMPLE.COM:80/" =
      some "https://http://EXAMPLE.COM:80/" ∧
    NormalizeURL "http://EXAMPLE.COM:80/" = some "http://example.com" := by
  refine ⟨by decide, by decide, by decide⟩

end UrlShortener
